import Mathlib

/-!
Verification of the Lebanese Basketball League scraper (`lbl_scraper.py`).

The development shallowly embeds the scraper's pure logic in Lean:
strings are `String`/`List Char`, Python `int` is `Int` with explicit
failure (`Except Unit`), parsed HTML documents are finite trees
(`HNode`), and each extractor is a Lean function translated line by
line from the Python source.  Regular expressions are evaluated by a
small backtracking engine (`Re`/`mRe`); every repetition operator used
by the scraper ranges over a character class, so the engine is
structurally recursive and executable.
-/

/-! ### Python string primitives -/

/-- ASCII decimal digit, the `\d` class (the scraper only meets ASCII). -/
def isDigitC (c : Char) : Bool := '0' ≤ c && c ≤ '9'

/-- ASCII letter, the `[A-Za-z]` class. -/
def isAlphaC (c : Char) : Bool := ('a' ≤ c && c ≤ 'z') || ('A' ≤ c && c ≤ 'Z')

/-- Whitespace as Python `str.strip` / regex `\s` see it (ASCII range). -/
def isSpaceC (c : Char) : Bool :=
  c == ' ' || c == '\t' || c == '\n' || c == '\r' || c == '\x0b' || c == '\x0c'

/-- Upper-case ASCII letter, the `[A-Z]` class. -/
def isUpperC (c : Char) : Bool := 'A' ≤ c && c ≤ 'Z'

/-- Lower-case ASCII letter, the `[a-z]` class. -/
def isLowerC (c : Char) : Bool := 'a' ≤ c && c ≤ 'z'

/-- `[A-Za-z\s]`, the class of the lazy group in the standings fallback regex. -/
def isAlphaSpaceC (c : Char) : Bool := isAlphaC c || isSpaceC c

/-- Python `s.strip(chars)`: drop characters satisfying `p` from both ends. -/
def pyStripChars (p : Char → Bool) (s : String) : String :=
  String.mk (((s.data.dropWhile p).reverse.dropWhile p).reverse)

/-- Python `s.strip()` (whitespace). -/
def pyStrip (s : String) : String := pyStripChars isSpaceC s

/-- Python `s.strip('[]')`. -/
def stripBrackets (s : String) : String :=
  pyStripChars (fun c => c == '[' || c == ']') s

/-- Does `hay` start with `needle`? -/
def startsWithL : List Char → List Char → Bool
  | [], _ => true
  | _ :: _, [] => false
  | a :: as, b :: bs => a == b && startsWithL as bs

/-- Substring test on character lists. -/
def containsSubL (needle : List Char) : List Char → Bool
  | [] => needle.isEmpty
  | c :: cs => startsWithL needle (c :: cs) || containsSubL needle cs

/-- Python `needle in hay` for strings. -/
def containsSub (hay needle : String) : Bool := containsSubL needle.data hay.data

/-- Python `c in hay` for a single character. -/
def containsChar (c : Char) (s : String) : Bool := s.data.any (· == c)

/-- Case-insensitive substring test (`re.search` of a plain word compiled
with `re.IGNORECASE`). -/
def containsCI (hay needle : String) : Bool :=
  containsSubL (needle.data.map Char.toLower) (hay.data.map Char.toLower)

/-- Python `s.replace(c, '')`: remove every occurrence of one character. -/
def removeChar (c : Char) (s : String) : String :=
  String.mk (s.data.filter (fun d => d != c))

/-- Helper for `pySplitChar`: accumulate the current chunk (reversed). -/
def splitOnCharAux (sep : Char) : List Char → List Char → List String
  | [], acc => [String.mk acc.reverse]
  | c :: cs, acc =>
    if c == sep then String.mk acc.reverse :: splitOnCharAux sep cs []
    else splitOnCharAux sep cs (c :: acc)

/-- Python `s.split(sep)` for a one-character separator:
`"a--b".split('-') = ["a", "", "b"]`, `"".split('-') = [""]`. -/
def pySplitChar (s : String) (sep : Char) : List String :=
  splitOnCharAux sep s.data []

/-- `l[i]` with a default, used for Python list indexing under a length guard. -/
def listNth {α : Type} : List α → Nat → Option α
  | [], _ => none
  | a :: _, 0 => some a
  | _ :: as, n + 1 => listNth as n

/-- Indexing into the pieces of a Python `split` (guarded in the source). -/
def partN (parts : List String) (i : Nat) : String := (listNth parts i).getD ""

/-- Numeric value of a digit list (underscores skipped), as a `Nat`. -/
def digitsValN (l : List Char) : Nat :=
  l.foldl (fun acc c => if c == '_' then acc else acc * 10 + (c.toNat - '0'.toNat)) 0

/-- Digit run with single underscores between digits, after the first digit:
the tail language of Python's integer-literal grammar `\d+(_\d+)*`. -/
def digitsURest : List Char → Bool
  | [] => true
  | ['_'] => false
  | '_' :: d :: ds => isDigitC d && digitsURest ds
  | c :: cs => isDigitC c && digitsURest cs

/-- Python `int()` digit grammar (digits with single interior underscores). -/
def digitsU : List Char → Bool
  | [] => false
  | c :: cs => isDigitC c && digitsURest cs

/-- Unsigned part of Python `int(s)`: digits (with legal underscores) or
`ValueError`. The value is built from a `Nat`, hence non-negative. -/
def pyIntCore (l : List Char) : Except Unit Int :=
  if digitsU l then .ok (Int.ofNat (digitsValN l)) else .error ()

/-- Python `int(s)`: strip whitespace, optional sign, digits; raises
`ValueError` (modelled as `.error ()`) on anything else. -/
def pyInt (s : String) : Except Unit Int :=
  match ((s.data.dropWhile isSpaceC).reverse.dropWhile isSpaceC).reverse with
  | '+' :: rest => pyIntCore rest
  | '-' :: rest => (pyIntCore rest).map (fun v => -v)
  | rest => pyIntCore rest

/-- Leading digit run of a character list, with the remainder. -/
def splitDigits : List Char → List Char × List Char
  | [] => ([], [])
  | c :: cs =>
    if isDigitC c then (c :: (splitDigits cs).1, (splitDigits cs).2)
    else ([], c :: cs)

/-- Python `float(tok)` for a token matched by `\d+\.?\d*`, read as an exact
decimal (the claims never inspect rounding, only which entries exist). -/
def pyFloatTok (s : String) : Rat :=
  let (ip, rest) := splitDigits s.data
  let fp := (match rest with
    | '.' :: fs => fs
    | _ => []).takeWhile isDigitC
  (digitsValN ip : Rat) + (digitsValN fp : Rat) / ((10 : Rat) ^ fp.length)

/-! ### A small regular-expression engine

Every repetition operator in the scraper's patterns ranges over a single
character class, so matching a repetition only has to choose how many
characters of the maximal class run to consume; the engine below is
therefore structurally recursive on the pattern while still implementing
Python's leftmost search with greedy/lazy backtracking and group capture. -/

/-- Capture list: group number paired with captured text. -/
abbrev Caps := List (Nat × String)

/-- Regular expressions as used by the scraper: concatenation, ordered
alternation, greedy (`repG`) and lazy (`repL`) bounded repetition of a
character class, and numbered groups. -/
inductive Re where
  | eps
  | cls (p : Char → Bool)
  | cat (a b : Re)
  | alt (a b : Re)
  | repG (p : Char → Bool) (lo : Nat) (hi : Option Nat)
  | repL (p : Char → Bool) (lo : Nat) (hi : Option Nat)
  | grp (n : Nat) (a : Re)

/-- First success of `f` over a list of candidate repetition counts. -/
def firstSome {α : Type} (f : Nat → Option α) : List Nat → Option α
  | [] => none
  | n :: ns =>
    match f n with
    | some r => some r
    | none => firstSome f ns

/-- Length of the maximal run of class-`p` characters at the head. -/
def runLen (p : Char → Bool) : List Char → Nat
  | [] => 0
  | c :: cs => if p c then runLen p cs + 1 else 0

/-- The substring of `orig` between positions `i` and `j`. -/
def charsSlice (orig : List Char) (i j : Nat) : String :=
  String.mk ((orig.drop i).take (j - i))

/-- CPS matcher: match `r` in `orig` at position `i` with captures `cp`,
then run the continuation `k`; alternatives are tried in Python's
backtracking order (greedy repetitions longest first, lazy shortest first,
left alternative first). -/
def mRe {α : Type} (orig : List Char) :
    Re → Nat → Caps → (Nat → Caps → Option α) → Option α
  | .eps, i, cp, k => k i cp
  | .cls p, i, cp, k =>
    match (orig.drop i).head? with
    | some c => if p c then k (i + 1) cp else none
    | none => none
  | .cat a b, i, cp, k => mRe orig a i cp (fun j cp2 => mRe orig b j cp2 k)
  | .alt a b, i, cp, k =>
    match mRe orig a i cp k with
    | some r => some r
    | none => mRe orig b i cp k
  | .repG p lo hi, i, cp, k =>
    let m := runLen p (orig.drop i)
    let hc := min m (hi.getD m)
    firstSome (fun n => if lo ≤ n then k (i + n) cp else none)
      ((List.range (hc + 1)).reverse)
  | .repL p lo hi, i, cp, k =>
    let m := runLen p (orig.drop i)
    let hc := min m (hi.getD m)
    firstSome (fun n => if lo ≤ n then k (i + n) cp else none)
      (List.range (hc + 1))
  | .grp n a, i, cp, k =>
    mRe orig a i cp (fun j cp2 => k j ((n, charsSlice orig i j) :: cp2))

/-- Python `re.match(r, s)` as a Boolean (anchored prefix match). -/
def reMatchB (r : Re) (s : String) : Bool :=
  (mRe (α := Nat) s.data r 0 [] (fun j _ => some j)).isSome

/-- One `re.search` attempt per start position, leftmost first. -/
def reSearchPos (r : Re) (orig : List Char) : Nat → Nat → Option (Nat × Nat × Caps)
  | i, fuel =>
    match mRe orig r i [] (fun j cp => some (i, j, cp)) with
    | some res => some res
    | none =>
      match fuel with
      | 0 => none
      | f + 1 => reSearchPos r orig (i + 1) f

/-- Python `re.search(r, s)`: start, end, and captures of the first match. -/
def reSearch (r : Re) (s : String) : Option (Nat × Nat × Caps) :=
  reSearchPos r s.data 0 s.data.length

/-- `re.search` as a Boolean, the form BeautifulSoup text filters use. -/
def reSearchB (r : Re) (s : String) : Bool := (reSearch r s).isSome

/-- `match.group(n)` of a capture list (every group number is unique in the
scraper's patterns, and all groups referenced always participate). -/
def capGet (cps : Caps) (n : Nat) : String :=
  ((cps.find? (fun x => x.1 == n)).map (fun x => x.2)).getD ""

/-- Scanner for Python `re.findall`: collect non-overlapping matches left to
right, advancing past each match (all patterns used match at least one
character). -/
def reFindallPos (r : Re) (orig : List Char) : Nat → Nat → List String
  | _, 0 => []
  | i, f + 1 =>
    match mRe (α := Nat) orig r i [] (fun j _ => some j) with
    | some j => charsSlice orig i j :: reFindallPos r orig (max j (i + 1)) f
    | none => reFindallPos r orig (i + 1) f

/-- Python `re.findall(r, s)` (list of whole-match texts). -/
def reFindall (r : Re) (s : String) : List String :=
  reFindallPos r s.data 0 (s.data.length + 1)

/-- Literal word as a regex (concatenation of single characters). -/
def reLit (s : String) : Re :=
  s.data.foldr (fun c r => Re.cat (.cls (fun d => d == c)) r) .eps

/-! ### `parse_game_id_from_url`

The source searches for `/(\d{4})_(\d+)_(\d+)\.aspx`.  Because each
repetition is a digit run delimited by a non-digit (`_` or `.`), the
backtracking search is deterministic: a match can only start at a `/`,
the first group must be the entire digit run after it (exactly four
digits), and the remaining two groups must be the maximal digit runs
before the following `_` and `.aspx`.  `matchGameAt`/`searchGameId`
implement exactly that leftmost search. -/

/-- One attempt of the game-id regex at the head of the list: a `/`, the
digit run after it (which must have exactly four characters), `_`, a
non-empty digit run, `_`, a non-empty digit run, then `.aspx`. -/
def matchGameAt : List Char → Option String
  | '/' :: r1 =>
    if (splitDigits r1).1.length == 4 then
      match (splitDigits r1).2 with
      | '_' :: r3 =>
        if (splitDigits r3).1.isEmpty then none
        else
          match (splitDigits r3).2 with
          | '_' :: r5 =>
            if (splitDigits r5).1.isEmpty then none
            else if startsWithL ['.', 'a', 's', 'p', 'x'] (splitDigits r5).2 then
              some (String.mk ((splitDigits r1).1 ++ '_' :: (splitDigits r3).1 ++ '_' :: (splitDigits r5).1))
            else none
          | _ => none
      | _ => none
    else none
  | _ => none

/-- Leftmost search for the game-id pattern. -/
def searchGameId : List Char → Option String
  | [] => none
  | c :: cs =>
    match matchGameAt (c :: cs) with
    | some g => some g
    | none => searchGameId cs

/-- `parse_game_id_from_url` (lines 136-144): `None`/empty URL gives `None`;
otherwise `re.search(r'/(\d{4})_(\d+)_(\d+)\.aspx', url)` and join the
three groups with underscores. -/
def parse_game_id_from_url : Option String → Option String
  | none => none
  | some u => if u = "" then none else searchGameId u.data

/-! ### Parsed HTML documents and BeautifulSoup operations

A parsed document is a finite tree of elements (with a tag and
attributes) and text nodes.  Local queries (`find_all`, `.text`,
attribute access) work on subtrees; `find_next`, `find_previous` and
`find_parent` need the whole document, so they work on a root plus a
path of child indices, with document order given by the preorder
listing of all paths. -/

/-- A node of a parsed HTML document. -/
inductive HNode where
  | text (s : String)
  | elem (tag : String) (attrs : List (String × String)) (children : List HNode)

instance : Inhabited HNode := ⟨.text ""⟩

mutual

/-- BeautifulSoup `.text` / `get_text()`: all descendant strings joined. -/
def HNode.getText : HNode → String
  | .text s => s
  | .elem _ _ cs => getTextList cs

/-- `getText` over a list of siblings. -/
def getTextList : List HNode → String
  | [] => ""
  | c :: cs => c.getText ++ getTextList cs

end

mutual

/-- Proper descendants of a node, in document (preorder) order. -/
def HNode.descendants : HNode → List HNode
  | .text _ => []
  | .elem _ _ cs => descendantsList cs

/-- Descendants of a sibling list: each node followed by its subtree. -/
def descendantsList : List HNode → List HNode
  | [] => []
  | c :: cs => c :: (c.descendants ++ descendantsList cs)

end

/-- Is this an element with the given tag name? -/
def HNode.tagIs (t : String) : HNode → Bool
  | .elem tg _ _ => tg == t
  | .text _ => false

/-- BeautifulSoup `node.find_all(t)`: descendant elements with tag `t`,
in document order. -/
def findAll (n : HNode) (t : String) : List HNode :=
  n.descendants.filter (HNode.tagIs t)

/-- BeautifulSoup `node.find(t)`: the first such descendant, if any. -/
def find1 (n : HNode) (t : String) : Option HNode := (findAll n t).head?

/-- Attribute lookup on an element. -/
def HNode.attr (n : HNode) (name : String) : Option String :=
  match n with
  | .elem _ attrs _ => (attrs.find? (fun a => a.1 == name)).map (fun a => a.2)
  | .text _ => none

/-- BeautifulSoup `tag.get(name, dflt)`. -/
def attrGetD (n : HNode) (name dflt : String) : String := (n.attr name).getD dflt

/-- Strings of the descendant text nodes, in document order. -/
def HNode.textNodes (n : HNode) : List String :=
  n.descendants.filterMap (fun d =>
    match d with
    | .text s => some s
    | .elem _ _ _ => none)

/-- BeautifulSoup `node.find(text=p)`: first descendant string accepted by
the filter. -/
def findString (n : HNode) (p : String → Bool) : Option String :=
  (n.textNodes.filter p).head?

mutual

/-- Paths (child-index lists) of a node and all its descendants, in
preorder; the node itself is `[]` and comes first. -/
def HNode.subPaths : HNode → List (List Nat)
  | .text _ => [[]]
  | .elem _ _ cs => [] :: subPathsList cs 0

/-- Paths of the descendants contributed by a sibling list starting at
child index `i`. -/
def subPathsList : List HNode → Nat → List (List Nat)
  | [], _ => []
  | c :: cs, i => c.subPaths.map (fun q => i :: q) ++ subPathsList cs (i + 1)

end

/-- Node of a document at a path of child indices. -/
def getAtPath : List Nat → HNode → Option HNode
  | [], n => some n
  | i :: p, .elem _ _ cs =>
    match listNth cs i with
    | some c => getAtPath p c
    | none => none
  | _ :: _, .text _ => none

/-- Total variant of `getAtPath` (all paths used below are valid). -/
def nodeAt (root : HNode) (p : List Nat) : HNode :=
  (getAtPath p root).getD (.text "")

/-- Every path of the document, in document (preorder) order. -/
def docPaths (root : HNode) : List (List Nat) := root.subPaths

/-- Paths strictly after `p` in document order (BeautifulSoup
`next_elements`, which starts with `p`'s own children). -/
def pathsAfter (root : HNode) (p : List Nat) : List (List Nat) :=
  ((docPaths root).dropWhile (fun q => q != p)).drop 1

/-- Paths strictly before `p` in document order. -/
def pathsBefore (root : HNode) (p : List Nat) : List (List Nat) :=
  (docPaths root).takeWhile (fun q => q != p)

/-- BeautifulSoup `node.find_next(t)`: first element with tag `t` after
`p` in document order. -/
def findNextTag (root : HNode) (p : List Nat) (t : String) : Option (List Nat) :=
  (pathsAfter root p).find? (fun q => (nodeAt root q).tagIs t)

/-- BeautifulSoup `node.find_previous(text=pr)`: nearest preceding string
(in document order) accepted by the filter. -/
def findPrevString (root : HNode) (p : List Nat) (pr : String → Bool) : Option String :=
  ((pathsBefore root p).reverse.filterMap (fun q =>
    match nodeAt root q with
    | .text s => if pr s then some s else none
    | .elem _ _ _ => none)).head?

/-- BeautifulSoup `soup.find(text=pr)`, returning the path of the first
matching string node of the document. -/
def findStringPath (root : HNode) (pr : String → Bool) : Option (List Nat) :=
  ((docPaths root).filter (fun q =>
    match nodeAt root q with
    | .text s => pr s
    | .elem _ _ _ => false)).head?

/-- The string at a path (empty for non-text nodes). -/
def textAtPath (root : HNode) (p : List Nat) : String :=
  match nodeAt root p with
  | .text s => s
  | .elem _ _ _ => ""

/-- Parent path: `find_parent()` with no arguments. -/
def parentPath (p : List Nat) : Option (List Nat) :=
  if p.isEmpty then none else some p.dropLast

/-- Proper ancestors of a path, nearest first. -/
def properAncestors (p : List Nat) : List (List Nat) :=
  (List.range p.length).reverse.map (fun k => p.take k)

/-- BeautifulSoup `node.find_parent(t)`: nearest ancestor with tag `t`. -/
def findParentTag (root : HNode) (p : List Nat) (t : String) : Option (List Nat) :=
  (properAncestors p).find? (fun q => (nodeAt root q).tagIs t)

/-- Paths of the proper descendants of the node at `p`, document order. -/
def descPathsAt (root : HNode) (p : List Nat) : List (List Nat) :=
  ((nodeAt root p).subPaths.drop 1).map (fun q => p ++ q)

/-- Path-returning `find_all(t)` below the node at `p`. -/
def findAllTagPaths (root : HNode) (p : List Nat) (t : String) : List (List Nat) :=
  (descPathsAt root p).filter (fun q => (nodeAt root q).tagIs t)

/-! ### Record types of the cached data model -/

/-- One standings row (`rank`, `team`, `wins`, `losses`). -/
structure StandingEntry where
  rank : Int
  team : String
  wins : Int
  losses : Int
deriving Repr, DecidableEq

/-- One finished game as extracted by `scrape_results`. -/
structure GameResult where
  date : String
  homeTeam : String
  homeScore : Int
  awayTeam : String
  awayScore : Int
  gameId : Option String
  boxScoreUrl : Option String
deriving Repr, DecidableEq

/-- One upcoming game as extracted by `scrape_upcoming`. -/
structure UpcomingGame where
  date : String
  homeTeam : String
  awayTeam : String
  homeScore : Option Int
  awayScore : Option Int
  time : String
  round : String
  venue : String
deriving Repr, DecidableEq

/-- One statistics-leader row. -/
structure StatEntry where
  player : String
  team : String
  value : Rat
deriving Repr, DecidableEq

/-- The five fixed stats-leader categories. -/
structure StatsLeaders where
  ppg : List StatEntry
  rpg : List StatEntry
  apg : List StatEntry
  spg : List StatEntry
  bpg : List StatEntry
deriving Repr, DecidableEq

/-- `BASE_URL` (line 35). -/
def BASE_URL : String := "https://www.asia-basket.com"

/-! ### Compiled regular expressions of the scraper -/

/-- `r'[A-Za-z]{3}\.?\s?\d{1,2}'` (lines 163 and 265). -/
def dateReSched : Re :=
  .cat (.repG isAlphaC 3 (some 3))
    (.cat (.repG (fun c => c == '.') 0 (some 1))
      (.cat (.repG isSpaceC 0 (some 1)) (.repG isDigitC 1 (some 2))))

/-- `r'[A-Za-z]{3}\.?\d{1,2}'` (line 217, main-page fallback: no `\s?`). -/
def dateReMain : Re :=
  .cat (.repG isAlphaC 3 (some 3))
    (.cat (.repG (fun c => c == '.') 0 (some 1)) (.repG isDigitC 1 (some 2)))

/-- `r'(\d+)\s+([A-Za-z\s]+?)\s+(\d+)-(\d+)'` (line 125). -/
def standingsLineRe : Re :=
  .cat (.grp 1 (.repG isDigitC 1 none))
    (.cat (.repG isSpaceC 1 none)
      (.cat (.grp 2 (.repL isAlphaSpaceC 1 none))
        (.cat (.repG isSpaceC 1 none)
          (.cat (.grp 3 (.repG isDigitC 1 none))
            (.cat (.cls (fun c => c == '-')) (.grp 4 (.repG isDigitC 1 none)))))))

/-- `r'\d+\.?\d*'` (line 341). -/
def numTokRe : Re :=
  .cat (.repG isDigitC 1 none)
    (.cat (.repG (fun c => c == '.') 0 (some 1)) (.repG isDigitC 0 none))

/-- `r'[A-Z][a-z]+'` (line 347). -/
def teamRe : Re := .cat (.cls isUpperC) (.repG isLowerC 1 none)

/-- `r'Round \d+'` (line 285). -/
def roundRe : Re := .cat (reLit "Round ") (.repG isDigitC 1 none)

/-! ### `scrape_standings` (lines 84-134)

The function has no per-record exception handler, so the two `int()`
calls on the record text can raise; it is therefore embedded in
`Except Unit`.  BeautifulSoup tags are always truthy (`Tag` defines
neither `__bool__` nor `__len__`), so `or` between `find` results picks
the first non-`None` one; a found `NavigableString` is truthy iff
non-empty. -/

/-- Column `i` of a row (guarded by length checks in the source). -/
def colN (cols : List HNode) (i : Nat) : HNode := (listNth cols i).getD (.text "")

/-- Python `cols[-1]` (used with `len(cols) > 2` in the source). -/
def colLast (cols : List HNode) : HNode := (listNth cols (cols.length - 1)).getD (.text "")

/-- `soup.find('table')`, else the table following a "Standings" string
(lines 88-94). -/
def findStandingsSection (soup : HNode) : Option HNode :=
  match find1 soup "table" with
  | some t => some t
  | none =>
    match findStringPath soup (fun s => containsSub s "Standings") with
    | none => none
    | some tp =>
      if textAtPath soup tp == "" then none
      else
        match parentPath tp with
        | none => none
        | some pp => (findNextTag soup pp "table").map (nodeAt soup)

/-- Body of the standings row loop (lines 100-118) for row index `idx`:
`.ok none` when the row is skipped, `.error ()` when `int()` raises. -/
def standingsRow (idx : Nat) (row : HNode) : Except Unit (Option StandingEntry) :=
  let cols := findAll row "td"
  if 2 ≤ cols.length then
    let team_link : Option HNode :=
      match find1 (colN cols 0) "a" with
      | some a => some a
      | none => find1 (colN cols 1) "a"
    let team_name :=
      match team_link with
      | some a => pyStrip a.getText
      | none => pyStrip (colN cols 1).getText
    let record_text := if 2 < cols.length then pyStrip (colLast cols).getText else ""
    if containsChar '-' record_text then
      let parts := pySplitChar record_text '-'
      match pyInt (partN parts 0) with
      | .error e => .error e
      | .ok wins =>
        match pyInt (partN parts 1) with
        | .error e => .error e
        | .ok losses =>
          .ok (some { rank := Int.ofNat idx, team := team_name, wins := wins, losses := losses })
    else
      .ok (some { rank := Int.ofNat idx, team := team_name, wins := 0, losses := 0 })
  else
    .ok none

/-- The `enumerate(rows, 1)` loop: indices advance on every row, entries
are appended for rows that pass the guard, the first `int()` failure
aborts the whole loop. -/
def standingsRows (idx : Nat) : List HNode → Except Unit (List StandingEntry)
  | [] => .ok []
  | row :: rest =>
    match standingsRow idx row with
    | .error e => .error e
    | .ok e? =>
      match standingsRows (idx + 1) rest with
      | .error e => .error e
      | .ok tail =>
        .ok (match e? with
          | some e => e :: tail
          | none => tail)

/-- One line of the plain-text fallback (lines 124-132): search the line
for the standings regex; `int()` on groups 1, 3, 4 (all-digit captures). -/
def standingsFromLine (line : String) : Except Unit (Option StandingEntry) :=
  match reSearch standingsLineRe line with
  | none => .ok none
  | some r =>
    match pyInt (capGet r.2.2 1) with
    | .error e => .error e
    | .ok rk =>
      match pyInt (capGet r.2.2 3) with
      | .error e => .error e
      | .ok w =>
        match pyInt (capGet r.2.2 4) with
        | .error e => .error e
        | .ok l =>
          .ok (some { rank := rk, team := pyStrip (capGet r.2.2 2), wins := w, losses := l })

/-- The fallback loop over the lines of `soup.get_text()`. -/
def standingsFallbackLines : List String → Except Unit (List StandingEntry)
  | [] => .ok []
  | line :: rest =>
    match standingsFromLine line with
    | .error e => .error e
    | .ok e? =>
      match standingsFallbackLines rest with
      | .error e => .error e
      | .ok tail =>
        .ok (match e? with
          | some e => e :: tail
          | none => tail)

/-- `scrape_standings(soup)` (lines 84-134). -/
def scrape_standings (soup : HNode) : Except Unit (List StandingEntry) :=
  match (match findStandingsSection soup with
         | some sec => standingsRows 1 ((findAll sec "tr").drop 1)
         | none => .ok ([] : List StandingEntry)) with
  | .error e => .error e
  | .ok standings =>
    match (if standings.isEmpty then
             standingsFallbackLines (pySplitChar soup.getText '\n')
           else .ok standings) with
    | .error e => .error e
    | .ok standings => .ok (standings.take 12)

/-! ### `scrape_results` (lines 146-246) -/

/-- The date guard of the schedule path (line 163). -/
def dateGuardSched (date_text : String) : Bool :=
  reMatchB dateReSched date_text || containsSub date_text "zij" || containsSub date_text "yRM"

/-- Body of the schedule-path row loop (lines 157-202).  The `try` block
covers everything after the date check; the only fallible step is
`int()` on the two score pieces, surfaced as `.error ()` (the source
catches it and skips the row). -/
def scheduleRowResult (row : HNode) : Except Unit (Option GameResult) :=
  let cols := findAll row "td"
  if 4 ≤ cols.length then
    let date_text := pyStrip (colN cols 0).getText
    if dateGuardSched date_text then
      let team1_elem := find1 (colN cols 1) "img"
      let team2_elem := if 3 < cols.length then find1 (colN cols 3) "img" else none
      match team1_elem, team2_elem with
      | some t1, some t2 =>
        let home_team := pyStrip (attrGetD t1 "alt" "")
        let away_team := pyStrip (attrGetD t2 "alt" "")
        let score_link := if 2 < cols.length then find1 (colN cols 2) "a" else none
        match score_link with
        | some sl =>
          let score_text := pyStrip sl.getText
          let box_score_url := attrGetD sl "href" ""
          if containsChar '-' score_text then
            let scores := pySplitChar (stripBrackets score_text) '-'
            match pyInt (partN scores 0) with
            | .error e => .error e
            | .ok home_score =>
              match pyInt (partN scores 1) with
              | .error e => .error e
              | .ok away_score =>
                let game_id := parse_game_id_from_url (some box_score_url)
                let clean_date := pyStrip (removeChar '.' (removeChar ':' date_text))
                .ok (some { date := clean_date, homeTeam := home_team,
                            homeScore := home_score, awayTeam := away_team,
                            awayScore := away_score, gameId := game_id,
                            boxScoreUrl := if box_score_url ≠ "" then
                              some (BASE_URL ++ box_score_url) else none })
          else .ok none
        | none => .ok none
      | _, _ => .ok none
    else .ok none
  else .ok none

/-- Row loop of the schedule path with the per-row `except: continue`:
an `.error` row is dropped, the others are kept. -/
def rowsResultsSched (rows : List HNode) : List GameResult :=
  rows.filterMap (fun row =>
    match scheduleRowResult row with
    | .ok (some r) => some r
    | .ok none => none
    | .error _ => none)

/-- Schedule-path extraction (lines 150-202): every row of every table. -/
def resultsFromSchedule (sched : HNode) : List GameResult :=
  (findAll sched "table").flatMap (fun t => rowsResultsSched (findAll t "tr"))

/-- Body of the main-page fallback row loop (lines 211-244): date regex
without `\s?` and no artifact alternatives, team names from raw cell
text, game id and box-score URL derived exactly as in the primary path. -/
def mainRowResult (row : HNode) : Except Unit (Option GameResult) :=
  let cols := findAll row "td"
  if 4 ≤ cols.length then
    let date_text := pyStrip (colN cols 0).getText
    if reMatchB dateReMain date_text then
      let home_team := pyStrip (colN cols 1).getText
      let score_link := find1 (colN cols 2) "a"
      let away_team := pyStrip (colN cols 3).getText
      match score_link with
      | some sl =>
        let score_text := pyStrip sl.getText
        let box_score_url := attrGetD sl "href" ""
        if containsChar '-' score_text then
          let scores := pySplitChar (stripBrackets score_text) '-'
          match pyInt (partN scores 0) with
          | .error e => .error e
          | .ok home_score =>
            match pyInt (partN scores 1) with
            | .error e => .error e
            | .ok away_score =>
              let game_id := parse_game_id_from_url (some box_score_url)
              .ok (some { date := date_text, homeTeam := home_team,
                          homeScore := home_score, awayTeam := away_team,
                          awayScore := away_score, gameId := game_id,
                          boxScoreUrl := if box_score_url ≠ "" then
                            some (BASE_URL ++ box_score_url) else none })
        else .ok none
      | none => .ok none
    else .ok none
  else .ok none

/-- Row loop of the fallback path with its per-row `except: continue`. -/
def rowsResultsMain (rows : List HNode) : List GameResult :=
  rows.filterMap (fun row =>
    match mainRowResult row with
    | .ok (some r) => some r
    | .ok none => none
    | .error _ => none)

/-- Fallback extraction over the main page (lines 205-244). -/
def resultsFromMain (soup : HNode) : List GameResult :=
  (findAll soup "table").flatMap (fun t => rowsResultsMain (findAll t "tr"))

/-- `scrape_results(soup, schedule_soup)` (lines 146-246). -/
def scrape_results (soup sched : HNode) : List GameResult :=
  let results := resultsFromSchedule sched
  let results := if results.isEmpty then resultsFromMain soup else results
  results.take 30

/-! ### `scrape_upcoming` (lines 248-311) -/

/-- The date guard of `scrape_upcoming` (line 265). -/
def dateGuardUpcoming (date_text : String) : Bool :=
  reMatchB dateReSched date_text || containsSub date_text "yRM" || containsSub date_text "biQ"

/-- Body of the upcoming row loop (lines 258-300); `root`/`rowPath` locate
the row in the whole document for `find_previous`.  No step inside the
source's `try` can raise, so the result is a plain `Option`. -/
def upcomingRow (root : HNode) (rowPath : List Nat) : Option UpcomingGame :=
  let row := nodeAt root rowPath
  let cols := findAll row "td"
  if 4 ≤ cols.length then
    let date_text := pyStrip (colN cols 0).getText
    if dateGuardUpcoming date_text then
      let team1_elem := find1 (colN cols 1) "img"
      let team2_elem := if 3 < cols.length then find1 (colN cols 3) "img" else none
      match team1_elem, team2_elem with
      | some t1, some t2 =>
        let home_team := pyStrip (attrGetD t1 "alt" "")
        let away_team := pyStrip (attrGetD t2 "alt" "")
        let score_link := if 2 < cols.length then find1 (colN cols 2) "a" else none
        if score_link.isNone || containsSub (colN cols 2).getText "Last 10 Games" then
          let clean_date := pyStrip (removeChar '.' (removeChar ':' date_text))
          let round_text :=
            match findPrevString root rowPath (fun s => reSearchB roundRe s) with
            | some rh => if rh == "" then "" else pyStrip rh
            | none => ""
          some { date := clean_date, homeTeam := home_team, awayTeam := away_team,
                 homeScore := none, awayScore := none, time := "TBD",
                 round := round_text, venue := "TBD" }
        else none
      | _, _ => none
    else none
  else none

/-- The raw `upcoming` list before de-duplication (lines 253-300). -/
def rawUpcoming (sched : HNode) : List UpcomingGame :=
  (findAllTagPaths sched [] "table").flatMap (fun tp =>
    (findAllTagPaths sched tp "tr").filterMap (upcomingRow sched))

/-- The composite key `f"{home}-{away}-{date}"` (line 306). -/
def upKey3 (g : UpcomingGame) : String :=
  g.homeTeam ++ "-" ++ g.awayTeam ++ "-" ++ g.date

/-- The `seen`-set de-duplication loop (lines 303-309). -/
def dedupUpcoming : List UpcomingGame → List String → List UpcomingGame
  | [], _ => []
  | g :: gs, seen =>
    if seen.contains (upKey3 g) then dedupUpcoming gs seen
    else g :: dedupUpcoming gs (upKey3 g :: seen)

/-- `scrape_upcoming(schedule_soup)` (lines 248-311). -/
def scrape_upcoming (sched : HNode) : List UpcomingGame :=
  (dedupUpcoming (rawUpcoming sched) []).take 15

/-! ### `scrape_stats` (lines 313-357) -/

/-- Per-link entry extraction (lines 335-355): nearest `tr` (else `div`)
ancestor is the row; the last numeric token of its text is the value;
the first capitalised string found in it is the team. -/
def statsLinkEntry (root : HNode) (linkPath : List Nat) : Option StatEntry :=
  let link := nodeAt root linkPath
  let player_name := pyStrip link.getText
  let rowPath :=
    match findParentTag root linkPath "tr" with
    | some p => some p
    | none => findParentTag root linkPath "div"
  match rowPath with
  | some rp =>
    let rowNode := nodeAt root rp
    let numbers := reFindall numTokRe rowNode.getText
    if numbers.isEmpty then none
    else
      let value := pyFloatTok ((listNth numbers (numbers.length - 1)).getD "")
      let team :=
        match findString rowNode (fun s => reSearchB teamRe s) with
        | some s => if s == "" then "Unknown" else pyStrip s
        | none => "Unknown"
      some { player := player_name, team := team, value := value }
  | none => none

/-- One category of `scrape_stats` (lines 325-355): a case-insensitive
text node carrying the label, its parent, and at most five player links
below that parent. -/
def statCategory (root : HNode) (label : String) : List StatEntry :=
  match findStringPath root (fun s => containsCI s label) with
  | none => []
  | some tp =>
    if textAtPath root tp == "" then []
    else
      match parentPath tp with
      | none => []
      | some pp =>
        let player_links := (findAllTagPaths root pp "a").filter (fun q =>
          match (nodeAt root q).attr "href" with
          | some h => containsSub h "/player/"
          | none => false)
        (player_links.take 5).filterMap (statsLinkEntry root)

/-- `scrape_stats(soup)` (lines 313-357). -/
def scrape_stats (soup : HNode) : StatsLeaders :=
  { ppg := statCategory soup "PPG"
    rpg := statCategory soup "RPG"
    apg := statCategory soup "APG"
    spg := statCategory soup "SPG"
    bpg := statCategory soup "BPG" }

/-! ### Cache, refresh cycle and API lookups -/

/-- The process-wide cache `league_data` (lines 21-33). -/
structure LeagueData where
  upcoming : List UpcomingGame
  results : List GameResult
  standings : List StandingEntry
  stats_leaders : StatsLeaders
  last_updated : Option String
deriving Repr, DecidableEq

/-- `scrape_league_data` (lines 39-82): the fetch step is abstracted as an
`Except` (network success yields the two parsed documents).  A fetch
failure, or an exception escaping `scrape_standings`, is caught by the
outer handler: the function returns `False` and the cache is untouched.
On success all cache fields and `last_updated` are replaced. -/
def scrape_league_data (fetch : Except Unit (HNode × HNode)) (now : String)
    (cache : LeagueData) : Bool × LeagueData :=
  match fetch with
  | .error _ => (false, cache)
  | .ok (soup, schedule_soup) =>
    match scrape_standings soup with
    | .error _ => (false, cache)
    | .ok standings =>
      (true,
        { standings := standings
          results := scrape_results soup schedule_soup
          upcoming := scrape_upcoming schedule_soup
          stats_leaders := scrape_stats soup
          last_updated := some now })

/-- Response body of `POST /api/refresh` (lines 461-468). -/
structure RefreshBody where
  success : Bool
  last_updated : Option String
deriving Repr, DecidableEq

/-- `force_refresh` (lines 461-468): run one cycle synchronously and report
its outcome together with the (possibly unchanged) `last_updated`. -/
def force_refresh (fetch : Except Unit (HNode × HNode)) (now : String)
    (cache : LeagueData) : RefreshBody × LeagueData :=
  let out := scrape_league_data fetch now cache
  ({ success := out.1, last_updated := out.2.last_updated }, out.2)

/-- Response of `GET /api/game/{id}` (lines 439-459). -/
inductive GameResponse where
  | resultGame (game : GameResult) (source : String)
  | upcomingGame (game : UpcomingGame) (source : String)
  | notFound (status : Nat) (error : String)
deriving Repr, DecidableEq

/-- The upcoming lookup key `f"{home}-{away}"` (line 452). -/
def upKey2 (g : UpcomingGame) : String := g.homeTeam ++ "-" ++ g.awayTeam

/-- The first `for` loop of `get_game`: first result whose `gameId`
equals the requested id (`None` never equals a string). -/
def findResultLoop (game_id : String) : List GameResult → Option GameResult
  | [] => none
  | g :: gs => if g.gameId == some game_id then some g else findResultLoop game_id gs

/-- The second `for` loop of `get_game`: first upcoming game whose
composite key equals the requested id. -/
def findUpcomingLoop (game_id : String) : List UpcomingGame → Option UpcomingGame
  | [] => none
  | g :: gs => if upKey2 g == game_id then some g else findUpcomingLoop game_id gs

/-- `get_game(game_id)` (lines 439-459). -/
def get_game (cache : LeagueData) (game_id : String) : GameResponse :=
  match findResultLoop game_id cache.results with
  | some g => .resultGame g "results"
  | none =>
    match findUpcomingLoop game_id cache.upcoming with
    | some g => .upcomingGame g "upcoming"
    | none => .notFound 404 "Game not found"

/-! ### Spec-side characterisation of the game-id pattern

Used only to state what a successful `parse_game_id_from_url` implies:
the URL contains a `/` followed by a four-digit run, an underscore, a
digit run, an underscore, a digit run and the literal `.aspx`. -/

/-- Every character of the list is a decimal digit. -/
def allDigits (l : List Char) : Prop := ∀ c ∈ l, isDigitC c = true

/-- The URL contains the `/(\d{4})_(\d+)_(\d+)\.aspx` pattern somewhere. -/
def HasGamePattern (s : String) : Prop :=
  ∃ pre a b c post : List Char,
    s.data = pre ++ '/' :: (a ++ '_' :: (b ++ '_' :: (c ++ '.' :: 'a' :: 's' :: 'p' :: 'x' :: post))) ∧
    a.length = 4 ∧ allDigits a ∧ b ≠ [] ∧ allDigits b ∧ c ≠ [] ∧ allDigits c

/-- Accessor used to state the fallback claim: the `href` of the score
link of a main-page row (empty when absent, as `get('href', '')`). -/
def mainRowHref (row : HNode) : String :=
  match find1 (colN (findAll row "td") 2) "a" with
  | some sl => attrGetD sl "href" ""
  | none => ""

/-! ### Concrete example documents and records

Small documents used by the counterexamples and witnesses below. -/

/-- A one-cell text column. -/
def exTd (s : String) : HNode := .elem "td" [] [.text s]

/-- A standings table whose data row's record cell is `"W-L"`: `int('W')`
raises inside `scrape_standings`. -/
def exBadStandingsDoc : HNode :=
  .elem "[document]" []
    [.elem "table" []
      [.elem "tr" [] [exTd "Team"],
       .elem "tr" [] [exTd "1", exTd "TeamX", exTd "W-L"]]]

/-- A well-formed standings table: header plus two data rows. -/
def exGoodTable : HNode :=
  .elem "table" []
    [.elem "tr" [] [exTd "Pos", exTd "Team", exTd "Rec"],
     .elem "tr" [] [exTd "1", exTd "Beirut", exTd "5-2"],
     .elem "tr" [] [exTd "2", exTd "Tripoli", exTd "3-4"]]

/-- A document holding `exGoodTable`. -/
def exGoodStandingsDoc : HNode := .elem "[document]" [] [exGoodTable]

/-- A document with no table whose text lines carry out-of-order ranks. -/
def exNoTableDoc : HNode :=
  .elem "[document]" [] [.text "7 Beirut 3-2\n3 Tripoli 1-4"]

/-- A row with exactly two cells, the first of which contains a
wins-losses pattern. -/
def exTwoColRow : HNode := .elem "tr" [] [exTd "5-3", exTd "TeamY"]

/-- Home-team logo of the example schedule row. -/
def exImgHome : HNode := .elem "img" [("alt", "HomeT")] []

/-- Away-team logo of the example schedule row. -/
def exImgAway : HNode := .elem "img" [("alt", "AwayT")] []

/-- Score link of the example schedule row. -/
def exScoreLink : HNode :=
  .elem "a" [("href", "/boxScores/Lebanon/2026/0209_2628_2682.aspx")] [.text "[85-80]"]

/-- A complete schedule result row: date, two logos, score link. -/
def exSchedRow : HNode :=
  .elem "tr" []
    [exTd "Feb.9:",
     .elem "td" [] [exImgHome],
     .elem "td" [] [exScoreLink],
     .elem "td" [] [exImgAway]]

/-- A schedule row whose score text `[a-1]` makes `int('a')` raise: the
per-row handler drops exactly this row. -/
def exBadSchedRow : HNode :=
  .elem "tr" []
    [exTd "Feb.9:",
     .elem "td" [] [.elem "img" [("alt", "H2")] []],
     .elem "td" [] [.elem "a" [("href", "")] [.text "[a-1]"]],
     .elem "td" [] [.elem "img" [("alt", "A2")] []]]

/-- A main-page fallback row whose score text `[a-1]` makes `int('a')`
raise: the fallback's per-row handler drops exactly this row. -/
def exBadMainRow : HNode :=
  .elem "tr" []
    [exTd "Feb.9:",
     exTd "H",
     .elem "td" [] [.elem "a" [("href", "")] [.text "[a-1]"]],
     exTd "A"]

/-- A main-page result row (raw text team cells, score link with a
box-score href). -/
def exMainRow : HNode :=
  .elem "tr" []
    [exTd "Feb.9:",
     exTd "RawHome",
     .elem "td" [] [exScoreLink],
     exTd "RawAway"]

/-- A main league page holding `exMainRow` in a table. -/
def exMainDoc : HNode := .elem "[document]" [] [.elem "table" [] [exMainRow]]

/-- An empty document (yields nothing for every extractor). -/
def exEmptyDoc : HNode := .elem "[document]" [] []

/-- The entry the fallback path extracts from `exMainRow`: raw date, raw
team texts, and a derived game id and box-score URL. -/
def exMainResult : GameResult :=
  { date := "Feb.9:", homeTeam := "RawHome", homeScore := 85,
    awayTeam := "RawAway", awayScore := 80,
    gameId := some "0209_2628_2682",
    boxScoreUrl := some "https://www.asia-basket.com/boxScores/Lebanon/2026/0209_2628_2682.aspx" }

/-- A cached result used by the `get_game` witness. -/
def exCachedResult : GameResult :=
  { date := "Feb9", homeTeam := "H", homeScore := 85, awayTeam := "A",
    awayScore := 80, gameId := some "0209_1_2", boxScoreUrl := none }

/-- A cached upcoming game used by the `get_game` witness. -/
def exCachedUpcoming : UpcomingGame :=
  { date := "Feb10", homeTeam := "X", awayTeam := "Y", homeScore := none,
    awayScore := none, time := "TBD", round := "", venue := "TBD" }

/-- A small cache used by the `get_game` witness. -/
def exCache : LeagueData :=
  { upcoming := [exCachedUpcoming], results := [exCachedResult],
    standings := [], stats_leaders := ⟨[], [], [], [], []⟩,
    last_updated := some "2026-02-09T00:00:00" }

/-- The entries the table path extracts from `exGoodStandingsDoc`. -/
def exGoodStandingsList : List StandingEntry :=
  [{ rank := 1, team := "Beirut", wins := 5, losses := 2 },
   { rank := 2, team := "Tripoli", wins := 3, losses := 4 }]

/-! ### Helper lemmas -/

lemma except_bind_ok {α β : Type} {x : Except Unit α} {f : α → Except Unit β} {b : β}
    (h : x >>= f = .ok b) : ∃ a, x = .ok a ∧ f a = .ok b := by
  cases x with
  | error e => simp [Bind.bind, Except.bind] at h
  | ok a => exact ⟨a, rfl, by simpa [Bind.bind, Except.bind] using h⟩

lemma pure_ok {α : Type} {a b : α} (h : (pure a : Except Unit α) = .ok b) : a = b := by
  simpa [pure, Except.pure] using h

lemma listNth_mem {α : Type} : ∀ (l : List α) (i : Nat) (x : α), listNth l i = some x → x ∈ l := by
  intro l
  induction l with
  | nil => intro i x h; simp [listNth] at h
  | cons a as ih =>
    intro i x h
    cases i with
    | zero =>
      rw [listNth] at h
      cases h
      exact List.mem_cons_self a as
    | succ n => exact List.mem_cons_of_mem a (ih n x h)

lemma splitAux_no_sep (sep : Char) :
    ∀ (l acc : List Char), (∀ c ∈ acc, (c == sep) = false) →
      ∀ p ∈ splitOnCharAux sep l acc, containsChar sep p = false := by
  intro l
  induction l with
  | nil =>
    intro acc hacc p hp
    simp only [splitOnCharAux, List.mem_singleton] at hp
    subst hp
    simp only [containsChar, List.any_eq_false]
    intro c hc
    simpa using hacc c (List.mem_reverse.mp hc)
  | cons c cs ih =>
    intro acc hacc p hp
    rw [splitOnCharAux] at hp
    by_cases h : (c == sep) = true
    · rw [if_pos h] at hp
      rcases List.mem_cons.mp hp with h1 | h1
      · subst h1
        simp only [containsChar, List.any_eq_false]
        intro d hd
        simpa using hacc d (List.mem_reverse.mp hd)
      · exact ih [] (by simp) p h1
    · rw [if_neg h] at hp
      refine ih (c :: acc) ?_ p hp
      intro d hd
      rcases List.mem_cons.mp hd with rfl | hd2
      · exact Bool.eq_false_iff.mpr (by simpa using h)
      · exact hacc d hd2

lemma partN_split_no_sep (s : String) (sep : Char) (i : Nat) :
    containsChar sep (partN (pySplitChar s sep) i) = false := by
  unfold partN
  cases h : listNth (pySplitChar s sep) i with
  | none => rfl
  | some p => exact splitAux_no_sep sep s.data [] (by simp) p (listNth_mem _ _ _ h)

lemma pyIntCore_nonneg {l : List Char} {v : Int} (h : pyIntCore l = .ok v) : 0 ≤ v := by
  unfold pyIntCore at h
  split at h
  · injection h with h
    exact h ▸ Int.ofNat_nonneg _
  · cases h

lemma trimmed_subset {s : String} {c : Char}
    (hc : c ∈ ((s.data.dropWhile isSpaceC).reverse.dropWhile isSpaceC).reverse) :
    c ∈ s.data := by
  rw [List.mem_reverse] at hc
  have h1 := (List.dropWhile_sublist isSpaceC).subset hc
  rw [List.mem_reverse] at h1
  exact (List.dropWhile_sublist isSpaceC).subset h1

lemma pyInt_nonneg {s : String} {v : Int} (hns : containsChar '-' s = false)
    (h : pyInt s = .ok v) : 0 ≤ v := by
  unfold pyInt at h
  split at h
  · exact pyIntCore_nonneg h
  · exfalso
    rename_i rest heq
    have hm : '-' ∈ ((s.data.dropWhile isSpaceC).reverse.dropWhile isSpaceC).reverse := by
      rw [heq]; exact List.mem_cons_self _ _
    have hs : '-' ∈ s.data := trimmed_subset hm
    simp only [containsChar, List.any_eq_false] at hns
    simpa using hns '-' hs
  · exact pyIntCore_nonneg h

lemma findResultLoop_eq_find (id : String) :
    ∀ l : List GameResult, findResultLoop id l = l.find? (fun g => g.gameId == some id) := by
  intro l
  induction l with
  | nil => rfl
  | cons g gs ih => cases h : (g.gameId == some id) <;> simp [findResultLoop, List.find?_cons, h, ih]

lemma findUpcomingLoop_eq_find (id : String) :
    ∀ l : List UpcomingGame, findUpcomingLoop id l = l.find? (fun g => upKey2 g == id) := by
  intro l
  induction l with
  | nil => rfl
  | cons g gs ih => cases h : (upKey2 g == id) <;> simp [findUpcomingLoop, List.find?_cons, h, ih]

lemma dedupUpcoming_not_seen :
    ∀ (gs : List UpcomingGame) (seen : List String) (g : UpcomingGame),
      g ∈ dedupUpcoming gs seen → seen.contains (upKey3 g) = false := by
  intro gs
  induction gs with
  | nil => intro seen g h; simp [dedupUpcoming] at h
  | cons a as ih =>
    intro seen g h
    rw [dedupUpcoming] at h
    by_cases hc : seen.contains (upKey3 a) = true
    · rw [if_pos hc] at h
      exact ih seen g h
    · rw [if_neg hc] at h
      rcases List.mem_cons.mp h with rfl | h2
      · exact Bool.eq_false_iff.mpr hc
      · have h3 := ih _ g h2
        simp only [List.contains_cons, Bool.or_eq_false_iff] at h3
        exact h3.2

lemma dedupUpcoming_pairwise_keys :
    ∀ (gs : List UpcomingGame) (seen : List String),
      (dedupUpcoming gs seen).Pairwise (fun a b => upKey3 a ≠ upKey3 b) := by
  intro gs
  induction gs with
  | nil => intro seen; simp [dedupUpcoming]
  | cons a as ih =>
    intro seen
    rw [dedupUpcoming]
    by_cases hc : seen.contains (upKey3 a) = true
    · rw [if_pos hc]; exact ih seen
    · rw [if_neg hc]
      refine List.Pairwise.cons ?_ (ih _)
      intro b hb
      have hnb := dedupUpcoming_not_seen _ _ _ hb
      simp only [List.contains_cons, Bool.or_eq_false_iff] at hnb
      intro he
      have := hnb.1
      simp only [beq_eq_false_iff_ne, ne_eq] at this
      exact this he.symm

lemma dedupUpcoming_sublist :
    ∀ (gs : List UpcomingGame) (seen : List String),
      List.Sublist (dedupUpcoming gs seen) gs := by
  intro gs
  induction gs with
  | nil => intro seen; simp [dedupUpcoming]
  | cons a as ih =>
    intro seen
    rw [dedupUpcoming]
    by_cases hc : seen.contains (upKey3 a) = true
    · rw [if_pos hc]
      exact (ih seen).trans (List.sublist_cons_self a as)
    · rw [if_neg hc]
      exact List.Sublist.cons₂ a (ih _)

lemma range'_take : ∀ (n i k : Nat), (List.range' i n).take k = List.range' i (min k n) := by
  intro n
  induction n with
  | zero => intro i k; simp
  | succ m ih =>
    intro i k
    cases k with
    | zero => simp
    | succ j =>
      have h1 : List.range' i (m + 1) = i :: List.range' (i + 1) m := by
        simp [List.range'_succ]
      have h2 : min (j + 1) (m + 1) = min j m + 1 := by omega
      have h3 : List.range' i (min j m + 1) = i :: List.range' (i + 1) (min j m) := by
        simp [List.range'_succ]
      rw [h1, List.take_succ_cons, ih, h2, h3]

lemma splitDigits_append : ∀ l : List Char, (splitDigits l).1 ++ (splitDigits l).2 = l := by
  intro l
  induction l with
  | nil => rfl
  | cons c cs ih =>
    by_cases h : isDigitC c = true
    · simp [splitDigits, h, ih]
    · simp [splitDigits, h]

lemma splitDigits_digits :
    ∀ (l : List Char) (c : Char), c ∈ (splitDigits l).1 → isDigitC c = true := by
  intro l
  induction l with
  | nil => intro c h; simp [splitDigits] at h
  | cons a as ih =>
    intro c h
    by_cases ha : isDigitC a = true
    · simp only [splitDigits, ha, if_true] at h
      rcases List.mem_cons.mp h with rfl | h2
      · exact ha
      · exact ih c h2
    · simp [splitDigits, ha] at h

lemma startsWithL_append :
    ∀ needle l, startsWithL needle l = true → ∃ t, l = needle ++ t := by
  intro needle
  induction needle with
  | nil => intro l _; exact ⟨l, rfl⟩
  | cons a as ih =>
    intro l h
    cases l with
    | nil => simp [startsWithL] at h
    | cons b bs =>
      rw [startsWithL, Bool.and_eq_true] at h
      obtain ⟨h1, h2⟩ := h
      obtain ⟨t, ht⟩ := ih bs h2
      have hab : a = b := by simpa using h1
      subst hab
      exact ⟨t, by simp [ht]⟩

lemma matchGameAt_sound :
    ∀ (l : List Char) (g : String), matchGameAt l = some g →
      ∃ a b c post,
        l = '/' :: (a ++ '_' :: (b ++ '_' :: (c ++ '.' :: 'a' :: 's' :: 'p' :: 'x' :: post))) ∧
        a.length = 4 ∧ allDigits a ∧ b ≠ [] ∧ allDigits b ∧ c ≠ [] ∧ allDigits c := by
  intro l g h
  unfold matchGameAt at h
  split at h
  case _ r1 =>
    split at h
    case isTrue h4 =>
      split at h
      case _ r3 heq3 =>
        split at h
        case isTrue => cases h
        case isFalse hb =>
          split at h
          case _ r5 heq5 =>
            split at h
            case isTrue => cases h
            case isFalse hc =>
              split at h
              case isTrue hasp =>
                obtain ⟨post, hpost⟩ := startsWithL_append _ _ hasp
                have er5 : r5 = (splitDigits r5).1 ++ '.' :: 'a' :: 's' :: 'p' :: 'x' :: post := by
                  have e := splitDigits_append r5
                  rw [hpost] at e
                  simpa using e.symm
                have er3 : r3 = (splitDigits r3).1 ++ '_' :: r5 := by
                  have e := splitDigits_append r3
                  rw [heq5] at e
                  exact e.symm
                have er1 : r1 = (splitDigits r1).1 ++ '_' :: r3 := by
                  have e := splitDigits_append r1
                  rw [heq3] at e
                  exact e.symm
                refine ⟨(splitDigits r1).1, (splitDigits r3).1, (splitDigits r5).1, post,
                  ?_, by simpa using h4, fun c hc2 => splitDigits_digits _ c hc2,
                  by simpa [List.isEmpty_iff] using hb,
                  fun c hc2 => splitDigits_digits _ c hc2,
                  by simpa [List.isEmpty_iff] using hc,
                  fun c hc2 => splitDigits_digits _ c hc2⟩
                conv_lhs => rw [er1, er3, er5]
              case isFalse => cases h
          case _ => cases h
      case _ => cases h
    case isFalse => cases h
  case _ => cases h

lemma searchGameId_sound :
    ∀ (l : List Char) (g : String), searchGameId l = some g →
      ∃ pre a b c post,
        l = pre ++ '/' :: (a ++ '_' :: (b ++ '_' :: (c ++ '.' :: 'a' :: 's' :: 'p' :: 'x' :: post))) ∧
        a.length = 4 ∧ allDigits a ∧ b ≠ [] ∧ allDigits b ∧ c ≠ [] ∧ allDigits c := by
  intro l
  induction l with
  | nil => intro g h; simp [searchGameId] at h
  | cons x xs ih =>
    intro g h
    rw [searchGameId] at h
    cases hm : matchGameAt (x :: xs) with
    | some g2 =>
      obtain ⟨a, b, c, post, heq, h4, hda, hb, hdb, hc, hdc⟩ := matchGameAt_sound _ _ hm
      exact ⟨[], a, b, c, post, by simpa using heq, h4, hda, hb, hdb, hc, hdc⟩
    | none =>
      rw [hm] at h
      obtain ⟨pre, a, b, c, post, heq, rest⟩ := ih g h
      exact ⟨x :: pre, a, b, c, post, by simp [heq], rest⟩

lemma standingsRow_rank_of_cols (idx : Nat) (row : HNode)
    (h2 : 2 ≤ (findAll row "td").length) {e? : Option StandingEntry}
    (h : standingsRow idx row = .ok e?) :
    ∃ e, e? = some e ∧ e.rank = Int.ofNat idx := by
  simp only [standingsRow] at h
  rw [if_pos h2] at h
  repeat' split at h
  all_goals first
    | exact Except.noConfusion h
    | (cases h; exact ⟨_, rfl, rfl⟩)

lemma standingsRows_ranks :
    ∀ (rows : List HNode) (idx : Nat) (l : List StandingEntry),
      (∀ row ∈ rows, 2 ≤ (findAll row "td").length) →
      standingsRows idx rows = .ok l →
      l.map (fun e => e.rank) = (List.range' idx rows.length).map Int.ofNat ∧
      l.length = rows.length := by
  intro rows
  induction rows with
  | nil =>
    intro idx l _ h
    rw [standingsRows] at h
    cases h
    simp
  | cons row rest ih =>
    intro idx l hall h
    rw [standingsRows] at h
    split at h
    · exact Except.noConfusion h
    case _ e? he =>
      split at h
      · exact Except.noConfusion h
      case _ tail htail =>
        cases h
        obtain ⟨e, rfl, hrank⟩ :=
          standingsRow_rank_of_cols idx row (hall row (List.mem_cons_self _ _)) he
        obtain ⟨ihm, ihl⟩ :=
          ih (idx + 1) tail (fun r hr => hall r (List.mem_cons_of_mem _ hr)) htail
        have hr : List.range' idx (rest.length + 1) = idx :: List.range' (idx + 1) rest.length := by
          simp [List.range'_succ]
        constructor
        · simp only [List.length_cons, hr, List.map_cons, hrank, ihm]
        · simp [ihl]

lemma standings_len_le (soup : HNode) (l : List StandingEntry)
    (h : scrape_standings soup = .ok l) : l.length ≤ 12 := by
  unfold scrape_standings at h
  repeat' split at h
  all_goals first
    | exact Except.noConfusion h
    | (cases h; exact List.length_take_le _ _)

lemma statCategory_len_le (root : HNode) (label : String) :
    (statCategory root label).length ≤ 5 := by
  simp only [statCategory]
  split
  · simp
  · split
    · simp
    · split
      · simp
      · exact (List.length_filterMap_le _ _).trans (List.length_take_le _ _)

/-! ### Claim theorems -/

/-- C1 counterexample: on the spec's example href the regex matches the
trailing `0209_2628_2682.aspx` filename, so the function returns
`"0209_2628_2682"`, not `"2026_2628_2682"`; and a non-trailing
occurrence of the pattern also matches (`/1234_5_6.aspxZZ`). -/
theorem parse_game_id_spec_counterexample :
    parse_game_id_from_url (some "/boxScores/Lebanon/2026/0209_2628_2682.aspx") =
      some "0209_2628_2682" ∧
    some "0209_2628_2682" ≠ some "2026_2628_2682" ∧
    parse_game_id_from_url (some "/1234_5_6.aspxZZ") = some "1234_5_6" :=
  ⟨rfl, by decide, rfl⟩

/-- C1 (amended): `parse_game_id_from_url` returns nothing for a missing
or empty href; on the example href it returns `"0209_2628_2682"` (the
match is the date-id-id filename, not the season directory); and
whenever it returns an id at all, the href contains the
`/(\d{4})_(\d+)_(\d+)\.aspx` pattern somewhere. -/
theorem parse_game_id_characterisation :
    parse_game_id_from_url none = none ∧
    parse_game_id_from_url (some "") = none ∧
    parse_game_id_from_url (some "/boxScores/Lebanon/2026/0209_2628_2682.aspx") =
      some "0209_2628_2682" ∧
    ∀ s g, parse_game_id_from_url (some s) = some g → HasGamePattern s := by
  refine ⟨rfl, rfl, rfl, ?_⟩
  intro s g h
  have h2 : (if s = "" then none else searchGameId s.data) = some g := h
  split at h2
  · exact Option.noConfusion h2
  · exact searchGameId_sound s.data g h2

/-- C1 witness: the spec's example href contains the pattern, as the
characterisation theorem demands of any successfully parsed href. -/
theorem parse_game_id_characterisation_witness :
    HasGamePattern "/boxScores/Lebanon/2026/0209_2628_2682.aspx" :=
  parse_game_id_characterisation.2.2.2 "/boxScores/Lebanon/2026/0209_2628_2682.aspx"
    "0209_2628_2682" rfl

/-- C4 (confirmed): a fetch failure leaves the cache exactly as it was
(every field, `last_updated` included), and the `/api/refresh` cycle
then reports `success := false` with the unchanged `last_updated`. -/
theorem fetch_failure_leaves_cache (e : Unit) (now : String) (cache : LeagueData) :
    scrape_league_data (.error e) now cache = (false, cache) ∧
    force_refresh (.error e) now cache =
      ({ success := false, last_updated := cache.last_updated }, cache) :=
  ⟨rfl, rfl⟩

/-- C6 (confirmed): `scrape_upcoming` is the truncation to 15 of the
de-duplicated raw list (so truncation happens after de-duplication), it
is an order-preserving sublist of the raw extraction, and no two of its
entries share the `(homeTeam, awayTeam, date)` triple. -/
theorem upcoming_dedup_before_truncation (sched : HNode) :
    scrape_upcoming sched = (dedupUpcoming (rawUpcoming sched) []).take 15 ∧
    List.Sublist (scrape_upcoming sched) (rawUpcoming sched) ∧
    (scrape_upcoming sched).Pairwise
      (fun a b => ¬(a.homeTeam = b.homeTeam ∧ a.awayTeam = b.awayTeam ∧ a.date = b.date)) := by
  refine ⟨rfl, ?_, ?_⟩
  · exact (List.take_sublist _ _).trans (dedupUpcoming_sublist _ _)
  · have hp := (dedupUpcoming_pairwise_keys (rawUpcoming sched) []).sublist
      (List.take_sublist 15 _)
    refine List.Pairwise.imp ?_ hp
    intro a b hk he
    rcases he with ⟨h1, h2, h3⟩
    exact hk (by simp [upKey3, h1, h2, h3])

/-- C7 (confirmed): every extractor output is truncated to its fixed
maximum length: at most 12 standings, 30 results, 15 upcoming games,
and 5 entries per stats-leader category. -/
theorem extractor_truncation_bounds (soup sched : HNode) :
    (∀ l, scrape_standings soup = .ok l → l.length ≤ 12) ∧
    (scrape_results soup sched).length ≤ 30 ∧
    (scrape_upcoming sched).length ≤ 15 ∧
    (scrape_stats soup).ppg.length ≤ 5 ∧
    (scrape_stats soup).rpg.length ≤ 5 ∧
    (scrape_stats soup).apg.length ≤ 5 ∧
    (scrape_stats soup).spg.length ≤ 5 ∧
    (scrape_stats soup).bpg.length ≤ 5 := by
  refine ⟨fun l h => standings_len_le soup l h, ?_, ?_, ?_, ?_, ?_, ?_, ?_⟩
  · simp only [scrape_results]
    exact List.length_take_le _ _
  · simp only [scrape_upcoming]
    exact List.length_take_le _ _
  · exact statCategory_len_le soup "PPG"
  · exact statCategory_len_le soup "RPG"
  · exact statCategory_len_le soup "APG"
  · exact statCategory_len_le soup "SPG"
  · exact statCategory_len_le soup "BPG"

/-- C7 witness at a concrete (empty) document pair. -/
theorem extractor_truncation_bounds_witness :
    scrape_standings exEmptyDoc = .ok [] ∧
    ([] : List StandingEntry).length ≤ 12 ∧
    (scrape_results exEmptyDoc exEmptyDoc).length ≤ 30 :=
  ⟨rfl, (extractor_truncation_bounds exEmptyDoc exEmptyDoc).1 [] rfl,
   (extractor_truncation_bounds exEmptyDoc exEmptyDoc).2.1⟩

/-- C8 (confirmed): `get_game` returns the first cached result whose
`gameId` equals the requested id with source `"results"`; failing that,
the first upcoming game whose `home-away` key (date not part of the key)
equals it with source `"upcoming"`; otherwise HTTP 404 with an error. -/
theorem get_game_lookup (cache : LeagueData) (id : String) :
    (∀ g, cache.results.find? (fun r => r.gameId == some id) = some g →
      get_game cache id = .resultGame g "results") ∧
    (cache.results.find? (fun r => r.gameId == some id) = none →
      ∀ g, cache.upcoming.find? (fun u => upKey2 u == id) = some g →
        get_game cache id = .upcomingGame g "upcoming") ∧
    (cache.results.find? (fun r => r.gameId == some id) = none →
      cache.upcoming.find? (fun u => upKey2 u == id) = none →
        get_game cache id = .notFound 404 "Game not found") := by
  unfold get_game
  rw [findResultLoop_eq_find, findUpcomingLoop_eq_find]
  refine ⟨?_, ?_, ?_⟩
  · intro g h
    rw [h]
  · intro h g h2
    rw [h, h2]
  · intro h h2
    rw [h, h2]

/-- C8 witness on a concrete cache: hit in results, hit in upcoming by
composite key, and a 404 miss. -/
theorem get_game_lookup_witness :
    get_game exCache "0209_1_2" = .resultGame exCachedResult "results" ∧
    get_game exCache "X-Y" = .upcomingGame exCachedUpcoming "upcoming" ∧
    get_game exCache "zzz" = .notFound 404 "Game not found" :=
  ⟨(get_game_lookup exCache "0209_1_2").1 exCachedResult rfl,
   (get_game_lookup exCache "X-Y").2.1 rfl exCachedUpcoming rfl,
   (get_game_lookup exCache "zzz").2.2 rfl rfl⟩

/-- C2 counterexample: a standings table whose record cell is `"W-L"`
makes `int('W')` raise out of `scrape_standings` — the whole extraction
aborts instead of dropping the one record, so the extractors do not all
catch per-record failures. -/
theorem scrape_standings_raises :
    scrape_standings exBadStandingsDoc = .error () := rfl

/-- C2 (amended): per-record failures are isolated in every loop that
has a handler or whose record step is total — the schedule path and the
main-page fallback of `scrape_results` (a row whose extraction raises is
dropped, the rows around it parse exactly as they would without it), the
row loop of `scrape_upcoming`, and the player-link loop of
`scrape_stats` (a row or link yielding no record drops only itself).
`scrape_standings` has no such handler and can abort as a whole — see
the counterexample. -/
theorem per_record_isolation_results (rows1 rows2 : List HNode) (badS badM : HNode)
    (root : HNode) (ps1 ps2 : List (List Nat)) (badP : List Nat)
    (root2 : HNode) (ls1 ls2 : List (List Nat)) (badL : List Nat)
    (hS : scheduleRowResult badS = .error ())
    (hM : mainRowResult badM = .error ())
    (hP : upcomingRow root badP = none)
    (hL : statsLinkEntry root2 badL = none) :
    rowsResultsSched (rows1 ++ badS :: rows2) =
      rowsResultsSched rows1 ++ rowsResultsSched rows2 ∧
    rowsResultsMain (rows1 ++ badM :: rows2) =
      rowsResultsMain rows1 ++ rowsResultsMain rows2 ∧
    (ps1 ++ badP :: ps2).filterMap (upcomingRow root) =
      ps1.filterMap (upcomingRow root) ++ ps2.filterMap (upcomingRow root) ∧
    (ls1 ++ badL :: ls2).filterMap (statsLinkEntry root2) =
      ls1.filterMap (statsLinkEntry root2) ++ ls2.filterMap (statsLinkEntry root2) := by
  refine ⟨?_, ?_, ?_, ?_⟩
  · simp [rowsResultsSched, List.filterMap_append, List.filterMap_cons, hS]
  · simp [rowsResultsMain, List.filterMap_append, List.filterMap_cons, hM]
  · simp [List.filterMap_append, List.filterMap_cons, hP]
  · simp [List.filterMap_append, List.filterMap_cons, hL]

/-- C2 witness: concrete failing records in each of the four loops are
dropped while their neighbours parse. -/
theorem per_record_isolation_results_witness :
    (scheduleRowResult exBadSchedRow = .error () ∧
     mainRowResult exBadMainRow = .error ()) ∧
    rowsResultsSched [exBadSchedRow, exSchedRow] =
      rowsResultsSched [] ++ rowsResultsSched [exSchedRow] ∧
    rowsResultsMain [exBadMainRow, exSchedRow] =
      rowsResultsMain [] ++ rowsResultsMain [exSchedRow] ∧
    ([([] : List Nat)]).filterMap (upcomingRow exEmptyDoc) =
      List.filterMap (upcomingRow exEmptyDoc) [] ++
        List.filterMap (upcomingRow exEmptyDoc) [] ∧
    ([([] : List Nat)]).filterMap (statsLinkEntry exEmptyDoc) =
      List.filterMap (statsLinkEntry exEmptyDoc) [] ++
        List.filterMap (statsLinkEntry exEmptyDoc) [] :=
  ⟨⟨rfl, rfl⟩,
   per_record_isolation_results [] [exSchedRow] exBadSchedRow exBadMainRow
     exEmptyDoc [] [] [] exEmptyDoc [] [] [] rfl rfl rfl rfl⟩

/-- C10 (confirmed): a table row with exactly two cells always yields a
standing entry with `wins = 0` and `losses = 0` — the record text is
only read when the row has more than two cells — with rank equal to the
row index. -/
theorem standings_two_cell_row (row : HNode) (idx : Nat)
    (h : (findAll row "td").length = 2) :
    ∃ name, standingsRow idx row =
      .ok (some { rank := Int.ofNat idx, team := name, wins := 0, losses := 0 }) := by
  simp only [standingsRow, h]
  norm_num
  exact ⟨_, rfl⟩

/-- C10 witness: a concrete two-cell row whose first cell contains the
wins-losses pattern `"5-3"` still yields `wins = 0`, `losses = 0`. -/
theorem standings_two_cell_row_witness :
    ∃ name, standingsRow 1 exTwoColRow =
      .ok (some { rank := 1, team := name, wins := 0, losses := 0 }) :=
  standings_two_cell_row exTwoColRow 1 rfl


/-- C5 counterexample: with no table present, the plain-text fallback
reads the rank from the page text: the lines `7 Beirut 3-2` and
`3 Tripoli 1-4` produce ranks `[7, 3]` — not assigned by extraction
order, not starting at 1, and not increasing. -/
theorem standings_fallback_rank_counterexample :
    scrape_standings exNoTableDoc =
      .ok [{ rank := 7, team := "Beirut", wins := 3, losses := 2 },
           { rank := 3, team := "Tripoli", wins := 1, losses := 4 }] ∧
    ¬ (List.Chain' (fun x y => x < y) [(7 : Int), 3] ∧
       [(7 : Int), 3].head? = some 1) :=
  ⟨rfl, fun hch => by simpa using hch.2⟩

/-- C5 (amended): the output never exceeds 12 entries, and in the table
path rank is the 1-based row index: when the document's first table
exists, has data rows, and every data row has at least two cells, the
ranks of the returned list are exactly 1, 2, 3, … in order.  In the
plain-text fallback the rank is read from the page instead and need not
start at 1 or increase. -/
theorem standings_table_ranks (soup tb : HNode) :
    (∀ l, scrape_standings soup = .ok l → l.length ≤ 12) ∧
    (find1 soup "table" = some tb →
      ((findAll tb "tr").drop 1).isEmpty = false →
      (((findAll tb "tr").drop 1).all
        (fun row => decide (2 ≤ (findAll row "td").length))) = true →
      ∀ l, scrape_standings soup = .ok l →
        l.map (fun e => e.rank) = (List.range' 1 l.length).map Int.ofNat) := by
  refine ⟨fun l h => standings_len_le soup l h, ?_⟩
  intro hft hne hall l h
  have hsec : findStandingsSection soup = some tb := by
    unfold findStandingsSection
    rw [hft]
  have hall2 : ∀ row ∈ (findAll tb "tr").drop 1, 2 ≤ (findAll row "td").length := by
    intro row hr
    exact of_decide_eq_true (List.all_eq_true.mp hall row hr)
  unfold scrape_standings at h
  rw [hsec] at h
  split at h
  · exact Except.noConfusion h
  case _ standings hrows =>
    obtain ⟨hmap, hlen⟩ := standingsRows_ranks _ 1 standings hall2 hrows
    have hrne : (findAll tb "tr").drop 1 ≠ [] := by
      simpa [List.isEmpty_eq_false] using hne
    have hsne : standings.isEmpty = false := by
      have hne2 : standings ≠ [] := by
        intro h0
        apply hrne
        rw [h0] at hlen
        exact (List.length_eq_zero.mp hlen.symm)
      simpa [List.isEmpty_eq_false] using hne2
    rw [hsne] at h
    simp only [Bool.false_eq_true, if_false] at h
    cases h
    rw [List.map_take, hmap, ← List.map_take Int.ofNat, range'_take,
      List.length_take, hlen]

/-- C5 witness: a concrete well-formed table produces ranks 1, 2. -/
theorem standings_table_ranks_witness :
    exGoodStandingsList.map (fun e => e.rank) =
      (List.range' 1 exGoodStandingsList.length).map Int.ofNat :=
  (standings_table_ranks exGoodStandingsDoc exGoodTable).2 rfl rfl rfl
    exGoodStandingsList rfl

/-- C3 counterexample: with an empty schedule document the main-page
fallback runs, and the entry it produces carries a derived `gameId` and
`boxScoreUrl` — the claim says both are absent in every fallback entry. -/
theorem results_fallback_counterexample :
    resultsFromSchedule exEmptyDoc = [] ∧
    scrape_results exMainDoc exEmptyDoc = [exMainResult] ∧
    exMainResult.gameId = some "0209_2628_2682" ∧
    exMainResult.boxScoreUrl ≠ none :=
  ⟨rfl, rfl, rfl, by decide⟩

set_option maxHeartbeats 1000000 in
/-- C3 (amended): when the schedule document yields no results,
`scrape_results` equals the main-page fallback truncated to 30; the
fallback takes team names from the raw text of cells 1 and 3, and each
entry it produces has `gameId` and `boxScoreUrl` derived from the score
link's href exactly as in the primary path (not absent). -/
theorem results_fallback_behaviour (soup sched row : HNode) (r : GameResult) :
    (resultsFromSchedule sched = [] →
      scrape_results soup sched = (resultsFromMain soup).take 30) ∧
    (mainRowResult row = .ok (some r) →
      r.homeTeam = pyStrip (colN (findAll row "td") 1).getText ∧
      r.awayTeam = pyStrip (colN (findAll row "td") 3).getText ∧
      r.gameId = parse_game_id_from_url (some (mainRowHref row)) ∧
      r.boxScoreUrl = (if mainRowHref row ≠ "" then
        some (BASE_URL ++ mainRowHref row) else none)) := by
  constructor
  · intro h
    unfold scrape_results
    rw [h]
    rfl
  · intro h
    simp only [mainRowResult] at h
    repeat' split at h
    all_goals first
      | exact Except.noConfusion h
      | exact Option.noConfusion (Except.ok.inj h)
      | (injection h with h1
         injection h1 with h2
         subst h2
         refine ⟨rfl, rfl, ?_, ?_⟩ <;> simp_all [mainRowHref])

/-- C3 witness: on the concrete main-page row the fallback entry's
`gameId` is derived from the row's score-link href. -/
theorem results_fallback_behaviour_witness :
    scrape_results exMainDoc exEmptyDoc = (resultsFromMain exMainDoc).take 30 ∧
    exMainResult.gameId = parse_game_id_from_url (some (mainRowHref exMainRow)) :=
  ⟨(results_fallback_behaviour exMainDoc exEmptyDoc exMainRow exMainResult).1 rfl,
   ((results_fallback_behaviour exMainDoc exEmptyDoc exMainRow exMainResult).2 rfl).2.2.1⟩

set_option maxHeartbeats 1000000 in
/-- C9 (confirmed): for a schedule row passing every guard whose score
text splits (after stripping surrounding brackets) into two pieces that
parse as integers, the produced entry's `homeScore` and `awayScore` are
exactly those two integers, and both are non-negative — a piece of a
`split('-')` cannot contain a minus sign. -/
theorem results_scores_from_pair (row t1 t2 sl : HNode) (a b : Int)
    (hlen : 4 ≤ (findAll row "td").length)
    (hdate : dateGuardSched (pyStrip (colN (findAll row "td") 0).getText) = true)
    (ht1 : find1 (colN (findAll row "td") 1) "img" = some t1)
    (ht2 : find1 (colN (findAll row "td") 3) "img" = some t2)
    (hsl : find1 (colN (findAll row "td") 2) "a" = some sl)
    (hdash : containsChar '-' (pyStrip sl.getText) = true)
    (ha : pyInt (partN (pySplitChar (stripBrackets (pyStrip sl.getText)) '-') 0) = .ok a)
    (hb : pyInt (partN (pySplitChar (stripBrackets (pyStrip sl.getText)) '-') 1) = .ok b) :
    (∃ r, scheduleRowResult row = .ok (some r) ∧ r.homeScore = a ∧ r.awayScore = b) ∧
    0 ≤ a ∧ 0 ≤ b := by
  have h3 : 3 < (findAll row "td").length := by omega
  have h2 : 2 < (findAll row "td").length := by omega
  have hres : scheduleRowResult row = .ok (some
      { date := pyStrip (removeChar '.' (removeChar ':'
          (pyStrip (colN (findAll row "td") 0).getText))),
        homeTeam := pyStrip (attrGetD t1 "alt" ""),
        homeScore := a,
        awayTeam := pyStrip (attrGetD t2 "alt" ""),
        awayScore := b,
        gameId := parse_game_id_from_url (some (attrGetD sl "href" "")),
        boxScoreUrl := if attrGetD sl "href" "" ≠ "" then
          some (BASE_URL ++ attrGetD sl "href" "") else none }) := by
    simp only [scheduleRowResult]
    rw [if_pos hlen, if_pos hdate, if_pos h3, ht1, ht2]
    simp only [if_pos h2]
    rw [hsl]
    simp only [if_pos hdash]
    rw [ha, hb]
  exact ⟨⟨_, hres, rfl, rfl⟩,
    pyInt_nonneg (partN_split_no_sep _ '-' 0) ha,
    pyInt_nonneg (partN_split_no_sep _ '-' 1) hb⟩

/-- C9 witness at a concrete schedule row with score `[85-80]`. -/
theorem results_scores_from_pair_witness :
    (∃ r, scheduleRowResult exSchedRow = .ok (some r) ∧
      r.homeScore = 85 ∧ r.awayScore = 80) ∧ 0 ≤ (85 : Int) ∧ 0 ≤ (80 : Int) :=
  results_scores_from_pair exSchedRow exImgHome exImgAway exScoreLink 85 80
    (by decide) rfl rfl rfl rfl rfl rfl rfl
